import Mathlib

/-!
# Verification of the go-lookup-tables lookup engines

Shallow embedding of `src/lib.rs` of the go-lookup-tables repository.

The Rust code is generic over a breakpoint type `T` and a value type `U`
(any ordered numeric types with `Add/Sub/Mul/Div/Neg` and conversions).
We embed it at two instantiations:

* the exact-field instantiation, with both `T` and `U` taken to be `ℚ`
  (this models the `f32`-valued tables up to rounding, and is the
  instantiation in which "exact arithmetic" statements are settled);
* the integer instantiation `OneDLookupZ`, with `T` and `U` taken to be
  `ℤ` and every division the truncating division of Rust's integer
  types (`Int.tdiv`), which is the instantiation exercised by the
  repository test `interpolation_linear_1d` (`i16` breakpoints, `i32`
  values).

Arrays `[T; C]` are modelled as lists; Rust's panicking index
operation `xs[i]` is modelled by `List.getD xs i 0`, which agrees with
it whenever the index is in bounds (every use below is in bounds for
valid tables).  `Result<U, E>` is `Except E ℚ`.  The compile-time
validation macros `create_1d_lookup!` / `create_2d_lookup!` are
modelled as `Option`-returning builders, `none` standing for the
compile-time panic.
-/

namespace GoLookup

/-- Model of Rust's `Iterator::position`: index of the first element
satisfying the predicate (`lib.rs` uses
`self.breakpoints.iter().position(|bp| bp >= &calc_breakpoint)`). -/
def position {α : Type} (p : α → Bool) : List α → Option Nat
  | [] => none
  | x :: xs => if p x then some 0 else (position p xs).map (fun n => n + 1)

/-- The error type of the 1-D lookup (`struct ExtrapolationError`, lib.rs 14). -/
structure ExtrapolationError where
deriving DecidableEq

/-- Decidable equality of `Except` results, for evaluating lookups on
concrete tables. -/
def exceptDecEq {ε α : Type} [DecidableEq ε] [DecidableEq α] :
    DecidableEq (Except ε α)
  | .error e, .error f =>
    if h : e = f then .isTrue (by rw [h]) else .isFalse (by simp [h])
  | .error _, .ok _ => .isFalse (by simp)
  | .ok _, .error _ => .isFalse (by simp)
  | .ok a, .ok b =>
    if h : a = b then .isTrue (by rw [h]) else .isFalse (by simp [h])

instance {ε α : Type} [DecidableEq ε] [DecidableEq α] :
    DecidableEq (Except ε α) := exceptDecEq

/-- Extrapolation methods for lookup tables (`enum Extrapolation`, lib.rs 23-30). -/
inductive Extrapolation
  | NoneError
  | NoneHoldExtreme
  | Linear

/-- Interpolation methods for lookup tables (`enum Interpolation`, lib.rs 33-42). -/
inductive Interpolation
  | Linear
  | NoneFloor
  | NoneCeiling
  | NoneClosest

/-- `struct OneDLookup` (lib.rs 45-65) at the exact-field instantiation
`T = U = ℚ`: breakpoints, values, and the four cached edge deltas. -/
structure OneDLookup where
  breakpoints : List ℚ
  values : List ℚ
  last_diff_bp : ℚ
  last_diff_values : ℚ
  first_diff_bp : ℚ
  first_diff_values : ℚ

/-- `OneDLookup::lookup` (lib.rs 93-146) at `T = U = ℚ` (the conversions
`T::from` / `U::from` are identities at this instantiation). -/
def OneDLookup.lookup (t : OneDLookup) (breakpoint : ℚ)
    (extrapolation : Extrapolation) (interpolation : Interpolation) :
    Except ExtrapolationError ℚ :=
  match position (fun bp => decide (breakpoint ≤ bp)) t.breakpoints with
  | some index =>
    if t.breakpoints.getD index 0 = breakpoint then
      .ok (t.values.getD index 0)
    else if index ≠ 0 then
      -- handle interpolation
      match interpolation with
      | .Linear =>
        let interpolated_diff_bp := breakpoint - t.breakpoints.getD (index - 1) 0
        let diff_actual_bp := t.breakpoints.getD index 0 - t.breakpoints.getD (index - 1) 0
        let diff_values := t.values.getD index 0 - t.values.getD (index - 1) 0
        .ok (interpolated_diff_bp * diff_values / diff_actual_bp + t.values.getD (index - 1) 0)
      | .NoneCeiling => .ok (t.values.getD index 0)
      | .NoneFloor => .ok (t.values.getD (index - 1) 0)
      | .NoneClosest =>
        let interpolated_diff_bp := breakpoint - t.breakpoints.getD (index - 1) 0
        let diff_actual_bp := t.breakpoints.getD index 0 - t.breakpoints.getD (index - 1) 0
        let diff_factor := diff_actual_bp - interpolated_diff_bp
        let round : Nat := if diff_factor > diff_actual_bp / 2 then 0 else 1
        .ok (t.values.getD (index - 1 + round) 0)
    else
      -- handle extrapolation at the low end
      match extrapolation with
      | .NoneError => .error ⟨⟩
      | .NoneHoldExtreme => .ok (t.values.getD 0 0)
      | .Linear =>
        let extrapolated_diff_bp := t.breakpoints.getD 1 0 - breakpoint
        .ok (extrapolated_diff_bp * (-t.first_diff_values) / t.first_diff_bp + t.values.getD 1 0)
  | none =>
    -- handle extrapolation at the high end
    match extrapolation with
    | .NoneError => .error ⟨⟩
    | .NoneHoldExtreme => .ok (t.values.getD (t.values.length - 1) 0)
    | .Linear =>
      let extrapolated_diff_bp := breakpoint - t.breakpoints.getD (t.breakpoints.length - 2) 0
      .ok (extrapolated_diff_bp * t.last_diff_values / t.last_diff_bp + t.values.getD (t.values.length - 2) 0)

/-- A valid 1-D table (spec §3): at least two strictly ascending
breakpoints, value list of the same length, and the four cached deltas
equal to the edge differences the builder precomputes. -/
def OneDLookup.Valid (t : OneDLookup) : Prop :=
  2 ≤ t.breakpoints.length ∧
  t.breakpoints.length = t.values.length ∧
  t.breakpoints.Pairwise (· < ·) ∧
  t.first_diff_bp = t.breakpoints.getD 1 0 - t.breakpoints.getD 0 0 ∧
  t.first_diff_values = t.values.getD 1 0 - t.values.getD 0 0 ∧
  t.last_diff_bp = t.breakpoints.getD (t.breakpoints.length - 1) 0
      - t.breakpoints.getD (t.breakpoints.length - 2) 0 ∧
  t.last_diff_values = t.values.getD (t.values.length - 1) 0
      - t.values.getD (t.values.length - 2) 0

/-- `struct OneDLookup` at the integer instantiation (`i16` breakpoints,
`i32` values, as in the repository test `interpolation_linear_1d`),
with Rust's truncating integer division. -/
structure OneDLookupZ where
  breakpoints : List ℤ
  values : List ℤ
  last_diff_bp : ℤ
  last_diff_values : ℤ
  first_diff_bp : ℤ
  first_diff_values : ℤ

/-- `OneDLookup::lookup` (lib.rs 93-146) at the integer instantiation:
every `/` of the source is the truncating division `Int.tdiv` of Rust's
integer types. -/
def OneDLookupZ.lookup (t : OneDLookupZ) (breakpoint : ℤ)
    (extrapolation : Extrapolation) (interpolation : Interpolation) :
    Except ExtrapolationError ℤ :=
  match position (fun bp => decide (breakpoint ≤ bp)) t.breakpoints with
  | some index =>
    if t.breakpoints.getD index 0 = breakpoint then
      .ok (t.values.getD index 0)
    else if index ≠ 0 then
      match interpolation with
      | .Linear =>
        let interpolated_diff_bp := breakpoint - t.breakpoints.getD (index - 1) 0
        let diff_actual_bp := t.breakpoints.getD index 0 - t.breakpoints.getD (index - 1) 0
        let diff_values := t.values.getD index 0 - t.values.getD (index - 1) 0
        .ok (Int.tdiv (interpolated_diff_bp * diff_values) diff_actual_bp + t.values.getD (index - 1) 0)
      | .NoneCeiling => .ok (t.values.getD index 0)
      | .NoneFloor => .ok (t.values.getD (index - 1) 0)
      | .NoneClosest =>
        let interpolated_diff_bp := breakpoint - t.breakpoints.getD (index - 1) 0
        let diff_actual_bp := t.breakpoints.getD index 0 - t.breakpoints.getD (index - 1) 0
        let diff_factor := diff_actual_bp - interpolated_diff_bp
        let round : Nat := if diff_factor > Int.tdiv diff_actual_bp 2 then 0 else 1
        .ok (t.values.getD (index - 1 + round) 0)
    else
      match extrapolation with
      | .NoneError => .error ⟨⟩
      | .NoneHoldExtreme => .ok (t.values.getD 0 0)
      | .Linear =>
        let extrapolated_diff_bp := t.breakpoints.getD 1 0 - breakpoint
        .ok (Int.tdiv (extrapolated_diff_bp * (-t.first_diff_values)) t.first_diff_bp + t.values.getD 1 0)
  | none =>
    match extrapolation with
    | .NoneError => .error ⟨⟩
    | .NoneHoldExtreme => .ok (t.values.getD (t.values.length - 1) 0)
    | .Linear =>
      let extrapolated_diff_bp := breakpoint - t.breakpoints.getD (t.breakpoints.length - 2) 0
      .ok (Int.tdiv (extrapolated_diff_bp * t.last_diff_values) t.last_diff_bp + t.values.getD (t.values.length - 2) 0)

/-- `struct TwoDLookup` (lib.rs 242-254) at `S = T = U = ℚ`. -/
structure TwoDLookup where
  breakpoints_h : List ℚ
  breakpoints_v : List ℚ
  values : List (List ℚ)

/-- The horizontal index resolution of `TwoDLookup::lookup`
(the `let indexes_h = match ...` of lib.rs 297-330). -/
def TwoDLookup.indexesH (t : TwoDLookup) (calc_breakpoint_h : ℚ)
    (interpolation : Interpolation) : Nat × Option Nat :=
  match position (fun bp => decide (calc_breakpoint_h ≤ bp)) t.breakpoints_h with
  | some index =>
    -- easy exit if bp matches existing bp
    if t.breakpoints_h.getD index 0 = calc_breakpoint_h then
      (index, none)
    -- horizontal interpolation zone
    else if index ≠ 0 then
      match interpolation with
      | .Linear => (index, some (index - 1))
      | .NoneCeiling => (index, none)
      | .NoneFloor => (index - 1, none)
      | .NoneClosest =>
        let interpolated_diff_bp_h := calc_breakpoint_h - t.breakpoints_h.getD (index - 1) 0
        let diff_actual_bp_h := t.breakpoints_h.getD index 0 - t.breakpoints_h.getD (index - 1) 0
        let diff_factor_h := diff_actual_bp_h - interpolated_diff_bp_h
        let round : Nat := if diff_factor_h > diff_actual_bp_h / 2 then 0 else 1
        (index - 1 + round, none)
    -- low end out of bounds horizontal
    else (0, none)
  -- high end out of bounds horizontal
  | none => (t.breakpoints_h.length - 1, none)

/-- `TwoDLookup::interpolate` (lib.rs 385-413).  The source's
`is_some`/`is_none`/`unwrap` analysis is rendered as a match on the two
optional lower indices; the two branches that build the two-element
`intermediary_values` array and fall through to the common vertical
blend are written with the blend inlined. -/
def TwoDLookup.interpolate (t : TwoDLookup) (indexes_h indexes_v : Nat × Option Nat)
    (breakpoint_h breakpoint_v : ℚ) : ℚ :=
  match indexes_h, indexes_v with
  | (h0, some h1), (v0, some v1) =>
    let interpolated_diff_bp_h := breakpoint_h - t.breakpoints_h.getD h1 0
    let diff_actual_bp_h := t.breakpoints_h.getD h0 0 - t.breakpoints_h.getD h1 0
    let diff_values_l := (t.values.getD v1 []).getD h0 0 - (t.values.getD v1 []).getD h1 0
    let diff_values_h := (t.values.getD v0 []).getD h0 0 - (t.values.getD v0 []).getD h1 0
    let intermediary_low := interpolated_diff_bp_h * diff_values_l / diff_actual_bp_h
        + (t.values.getD v1 []).getD h1 0
    let intermediary_high := interpolated_diff_bp_h * diff_values_h / diff_actual_bp_h
        + (t.values.getD v0 []).getD h1 0
    let interpolated_diff_bp_v := breakpoint_v - t.breakpoints_v.getD v1 0
    let diff_actual_bp_v := t.breakpoints_v.getD v0 0 - t.breakpoints_v.getD v1 0
    interpolated_diff_bp_v * (intermediary_high - intermediary_low) / diff_actual_bp_v
        + intermediary_low
  | (h0, none), (v0, none) => (t.values.getD v0 []).getD h0 0
  | (h0, none), (v0, some v1) =>
    let intermediary_low := (t.values.getD v1 []).getD h0 0
    let intermediary_high := (t.values.getD v0 []).getD h0 0
    let interpolated_diff_bp_v := breakpoint_v - t.breakpoints_v.getD v1 0
    let diff_actual_bp_v := t.breakpoints_v.getD v0 0 - t.breakpoints_v.getD v1 0
    interpolated_diff_bp_v * (intermediary_high - intermediary_low) / diff_actual_bp_v
        + intermediary_low
  | (h0, some h1), (v0, none) =>
    let interpolated_diff_bp_h := breakpoint_h - t.breakpoints_h.getD h1 0
    let diff_actual_bp_h := t.breakpoints_h.getD h0 0 - t.breakpoints_h.getD h1 0
    let diff_values_h := (t.values.getD v0 []).getD h0 0 - (t.values.getD v0 []).getD h1 0
    interpolated_diff_bp_h * diff_values_h / diff_actual_bp_h
        + (t.values.getD v0 []).getD h1 0

/-- `TwoDLookup::lookup` (lib.rs 292-383) at `S = T = U = ℚ`.  The Rust
function returns `Result<U, Infallible>` whose error type is empty, so
every path returns `Ok`; the model therefore returns the value
directly. -/
def TwoDLookup.lookup (t : TwoDLookup) (breakpoint_h breakpoint_v : ℚ)
    (interpolation : Interpolation) : ℚ :=
  let indexes_h := t.indexesH breakpoint_h interpolation
  -- get the vertical index and calculate the value
  match position (fun bp => decide (breakpoint_v ≤ bp)) t.breakpoints_v with
  | some index =>
    -- easy exit if bp matches existing bp
    if t.breakpoints_v.getD index 0 = breakpoint_v then
      match interpolation with
      | .Linear => t.interpolate indexes_h (index, none) breakpoint_h breakpoint_v
      | _ => (t.values.getD index []).getD indexes_h.1 0
    -- vertical interpolation zone
    else if index ≠ 0 then
      match interpolation with
      | .Linear => t.interpolate indexes_h (index, some (index - 1)) breakpoint_h breakpoint_v
      | .NoneCeiling => (t.values.getD index []).getD indexes_h.1 0
      | .NoneFloor => (t.values.getD (index - 1) []).getD indexes_h.1 0
      | .NoneClosest =>
        let interpolated_diff_bp_v := breakpoint_v - t.breakpoints_v.getD (index - 1) 0
        let diff_actual_bp_v := t.breakpoints_v.getD index 0 - t.breakpoints_v.getD (index - 1) 0
        let diff_factor_v := diff_actual_bp_v - interpolated_diff_bp_v
        let round : Nat := if diff_factor_v > diff_actual_bp_v / 2 then 0 else 1
        (t.values.getD (index - 1 + round) []).getD indexes_h.1 0
    -- low end out of bounds vertical
    else
      match interpolation with
      | .Linear => t.interpolate indexes_h (0, none) breakpoint_h breakpoint_v
      | _ => (t.values.getD 0 []).getD indexes_h.1 0
  -- high end out of bounds vertical
  | none =>
    match interpolation with
    | .Linear => t.interpolate indexes_h (t.breakpoints_v.length - 1, none) breakpoint_h breakpoint_v
    | _ => (t.values.getD (t.values.length - 1) []).getD indexes_h.1 0

/-- A valid 2-D table (spec §3): two strictly ascending axes of length
at least two and an `M × N` value matrix. -/
def TwoDLookup.Valid (t : TwoDLookup) : Prop :=
  2 ≤ t.breakpoints_h.length ∧
  2 ≤ t.breakpoints_v.length ∧
  t.breakpoints_h.Pairwise (· < ·) ∧
  t.breakpoints_v.Pairwise (· < ·) ∧
  t.values.length = t.breakpoints_v.length ∧
  ∀ row ∈ t.values, row.length = t.breakpoints_h.length

/-- The sortedness loop of the builder macros (lib.rs 205-214 and
494-506): walks adjacent pairs and fails iff some earlier breakpoint is
strictly greater than its successor. -/
def sortedCheck : List ℚ → Bool
  | [] => true
  | [_] => true
  | x :: y :: rest => if x > y then false else sortedCheck (y :: rest)

/-- `create_1d_lookup!` (lib.rs 196-231): the length and sortedness
checks, then construction of the table with the four precomputed edge
deltas.  A compile-time panic is modelled as `none`; the delta
computations index `[1]` and `[len-2]`, which panic when fewer than two
breakpoints are given, hence the length guard. -/
def create_1d_lookup (breakpoints values : List ℚ) : Option OneDLookup :=
  if breakpoints.length ≠ values.length then none
  else if ¬ sortedCheck breakpoints then none
  else if breakpoints.length < 2 then none
  else some
    { breakpoints := breakpoints
      values := values
      last_diff_bp := breakpoints.getD (breakpoints.length - 1) 0
          - breakpoints.getD (breakpoints.length - 2) 0
      last_diff_values := values.getD (values.length - 1) 0
          - values.getD (values.length - 2) 0
      first_diff_bp := breakpoints.getD 1 0 - breakpoints.getD 0 0
      first_diff_values := values.getD 1 0 - values.getD 0 0 }

/-- `create_2d_lookup!` (lib.rs 477-514): vertical length check,
horizontal length check against row 0 (indexing `values[0]` panics on an
empty matrix, hence the emptiness guard), then the two sortedness
loops, then construction. -/
def create_2d_lookup (breakpoints_h breakpoints_v : List ℚ)
    (values : List (List ℚ)) : Option TwoDLookup :=
  if breakpoints_v.length ≠ values.length then none
  else if values.length = 0 then none
  else if breakpoints_h.length ≠ (values.getD 0 []).length then none
  else if ¬ sortedCheck breakpoints_h then none
  else if ¬ sortedCheck breakpoints_v then none
  else some
    { breakpoints_h := breakpoints_h
      breakpoints_v := breakpoints_v
      values := values }

/-! ## Example tables

The tables used by the spec's §8 "testable properties" and by the
repository tests, written with the exact rationals the decimal
literals denote. -/

/-- breakpoints=[0,5000], values=[0,500] with the deltas
`create_1d_lookup!` computes (tests `extrapolation_*_1d`). -/
def pressureTable : OneDLookup :=
  { breakpoints := [0, 5000], values := [0, 500],
    last_diff_bp := 5000, last_diff_values := 500,
    first_diff_bp := 5000, first_diff_values := 500 }

/-- breakpoints=[0,500,4500,5000], values=[0,0,500,500] at the integer
instantiation (test `interpolation_linear_1d`). -/
def voltageTableZ : OneDLookupZ :=
  { breakpoints := [0, 500, 4500, 5000], values := [0, 0, 500, 500],
    last_diff_bp := 500, last_diff_values := 0,
    first_diff_bp := 500, first_diff_values := 0 }

/-- breakpoints=[0,500,4500,5000], values=[0,0,500,500] at the
exact-field instantiation. -/
def voltageTableQ : OneDLookup :=
  { breakpoints := [0, 500, 4500, 5000], values := [0, 0, 500, 500],
    last_diff_bp := 500, last_diff_values := 0,
    first_diff_bp := 500, first_diff_values := 0 }

/-- breakpoints=[0,1,5,6], values=[0,1,6,8]
(test `interpolation_closest_1d`). -/
def closestTable : OneDLookup :=
  { breakpoints := [0, 1, 5, 6], values := [0, 1, 6, 8],
    last_diff_bp := 1, last_diff_values := 2,
    first_diff_bp := 1, first_diff_values := 1 }

/-- horizontal=[0,500,1000], vertical=[0,3,6],
values=[[3,4.2,5.5],[4.2,5,6],[5,5.8,6.5]] (the 2-D tests). -/
def gridTable : TwoDLookup :=
  { breakpoints_h := [0, 500, 1000], breakpoints_v := [0, 3, 6],
    values := [[3, 21/5, 11/2], [21/5, 5, 6], [5, 29/5, 13/2]] }

/-! ## Spec-side formulas, for refinement comparison

These two definitions follow the spec's words (not the source); they
exist only to be compared with the behaviour of `OneDLookup.lookup`. -/

/-- The spec's low-end linear-extrapolation formula, exactly as written
in spec 4.2: "below range, `v = v1 + (q-b1) * (-firstDeltaV/firstDeltaB)`". -/
def lowLinearBySpec (t : OneDLookup) (q : ℚ) : ℚ :=
  t.values.getD 1 0 + (q - t.breakpoints.getD 1 0)
    * (-t.first_diff_values / t.first_diff_bp)

/-- The Closest rule as claim C8 words it: return `v[index]` when the
remaining distance from `q` to `b[index]` is strictly smaller than half
the segment width, else `v[index-1]`. -/
def closestBySpec (t : OneDLookup) (index : Nat) (q : ℚ) : ℚ :=
  if t.breakpoints.getD index 0 - q
      < (t.breakpoints.getD index 0 - t.breakpoints.getD (index - 1) 0) / 2
  then t.values.getD index 0
  else t.values.getD (index - 1) 0

/-! ## Properties of `position` -/

theorem position_eq_none_iff {α : Type} (p : α → Bool) (l : List α) :
    position p l = none ↔ ∀ x ∈ l, p x = false := by
  induction l with
  | nil => simp [position]
  | cons x xs ih =>
    by_cases h : p x = true
    · simp [position, h]
    · simp only [Bool.not_eq_true] at h
      simp [position, h, ih]

theorem position_eq_some_of {α : Type} (p : α → Bool) (d : α) (l : List α) (i : Nat)
    (hi : i < l.length) (hp : p (l.getD i d) = true)
    (hj : ∀ j, j < i → p (l.getD j d) = false) : position p l = some i := by
  induction l generalizing i with
  | nil => simp at hi
  | cons x xs ih =>
    cases i with
    | zero =>
      have hx : p x = true := by simpa using hp
      simp [position, hx]
    | succ k =>
      have hx : p x = false := by simpa using hj 0 (Nat.succ_pos k)
      have hrec := ih k (by simpa using hi) (by simpa using hp)
        (fun j hjk => by simpa using hj (j + 1) (Nat.succ_lt_succ hjk))
      simp [position, hx, hrec]

theorem position_spec {α : Type} (p : α → Bool) (d : α) (l : List α) (i : Nat)
    (h : position p l = some i) :
    i < l.length ∧ p (l.getD i d) = true ∧ ∀ j, j < i → p (l.getD j d) = false := by
  induction l generalizing i with
  | nil => simp [position] at h
  | cons x xs ih =>
    by_cases hx : p x = true
    · simp [position, hx] at h
      subst h
      refine ⟨by simp, by simpa using hx, fun j hj => absurd hj (Nat.not_lt_zero j)⟩
    · simp only [Bool.not_eq_true] at hx
      simp only [position, hx, Bool.false_eq_true, if_false, Option.map_eq_some'] at h
      obtain ⟨k, hk, rfl⟩ := h
      obtain ⟨h1, h2, h3⟩ := ih k hk
      refine ⟨by simpa using h1, by simpa using h2, fun j hj => ?_⟩
      cases j with
      | zero => simpa using hx
      | succ m => simpa using h3 m (by omega)

/-! ## Access lemmas for strictly ascending breakpoint lists -/

theorem getD_lt_getD {l : List ℚ} (hs : l.Pairwise (· < ·)) {i j : Nat}
    (hij : i < j) (hj : j < l.length) : l.getD i 0 < l.getD j 0 := by
  rw [List.getD_eq_getElem l 0 (lt_trans hij hj), List.getD_eq_getElem l 0 hj]
  exact List.pairwise_iff_getElem.mp hs i j (lt_trans hij hj) hj hij

theorem getD_le_getD {l : List ℚ} (hs : l.Pairwise (· < ·)) {i j : Nat}
    (hij : i ≤ j) (hj : j < l.length) : l.getD i 0 ≤ l.getD j 0 := by
  rcases lt_or_eq_of_le hij with h | h
  · exact le_of_lt (getD_lt_getD hs h hj)
  · rw [h]

theorem mem_le_last {l : List ℚ} (hs : l.Pairwise (· < ·)) {x : ℚ} (hx : x ∈ l) :
    x ≤ l.getD (l.length - 1) 0 := by
  obtain ⟨k, hk, rfl⟩ := List.mem_iff_getElem.mp hx
  rw [← List.getD_eq_getElem l 0 hk]
  exact getD_le_getD hs (by omega) (by omega)

/-! ## Branch characterisations of the 1-D lookup -/

theorem lookup_exact_hit (t : OneDLookup) (hv : t.Valid) (i : Nat)
    (hi : i < t.breakpoints.length) (e : Extrapolation) (p : Interpolation) :
    t.lookup (t.breakpoints.getD i 0) e p = .ok (t.values.getD i 0) := by
  obtain ⟨hlen, hlv, hs, -⟩ := id hv
  have hpos : position (fun bp => decide (t.breakpoints.getD i 0 ≤ bp))
      t.breakpoints = some i := by
    apply position_eq_some_of _ 0 _ _ hi
    · exact decide_eq_true le_rfl
    · intro j hji
      simp only [decide_eq_false_iff_not, not_le]
      exact getD_lt_getD hs hji hi
  simp only [OneDLookup.lookup]
  rw [hpos]
  dsimp only
  rw [if_pos rfl]

theorem lookup_bracket (t : OneDLookup) (hv : t.Valid) (i : Nat) (q : ℚ)
    (h1 : 1 ≤ i) (hi : i < t.breakpoints.length)
    (hlow : t.breakpoints.getD (i - 1) 0 < q)
    (hhigh : q < t.breakpoints.getD i 0)
    (e : Extrapolation) (p : Interpolation) :
    t.lookup q e p = .ok (match p with
      | .Linear =>
        (q - t.breakpoints.getD (i - 1) 0)
          * (t.values.getD i 0 - t.values.getD (i - 1) 0)
          / (t.breakpoints.getD i 0 - t.breakpoints.getD (i - 1) 0)
          + t.values.getD (i - 1) 0
      | .NoneCeiling => t.values.getD i 0
      | .NoneFloor => t.values.getD (i - 1) 0
      | .NoneClosest =>
        t.values.getD (i - 1 +
          (if (t.breakpoints.getD i 0 - t.breakpoints.getD (i - 1) 0)
                - (q - t.breakpoints.getD (i - 1) 0)
              > (t.breakpoints.getD i 0 - t.breakpoints.getD (i - 1) 0) / 2
           then 0 else 1)) 0) := by
  obtain ⟨hlen, hlv, hs, -⟩ := id hv
  have hpos : position (fun bp => decide (q ≤ bp)) t.breakpoints = some i := by
    apply position_eq_some_of _ 0 _ _ hi
    · exact decide_eq_true (le_of_lt hhigh)
    · intro j hji
      simp only [decide_eq_false_iff_not, not_le]
      exact lt_of_le_of_lt (getD_le_getD hs (by omega) (by omega)) hlow
  have hne : t.breakpoints.getD i 0 ≠ q := ne_of_gt hhigh
  have h0 : i ≠ 0 := by omega
  simp only [OneDLookup.lookup]
  rw [hpos]
  dsimp only
  rw [if_neg hne, if_pos h0]
  cases p <;> rfl

theorem lookup_below (t : OneDLookup) (hv : t.Valid) (q : ℚ)
    (hq : q < t.breakpoints.getD 0 0) (e : Extrapolation) (p : Interpolation) :
    t.lookup q e p = match e with
      | .NoneError => .error ⟨⟩
      | .NoneHoldExtreme => .ok (t.values.getD 0 0)
      | .Linear => .ok ((t.breakpoints.getD 1 0 - q) * (-t.first_diff_values)
          / t.first_diff_bp + t.values.getD 1 0) := by
  obtain ⟨hlen, hlv, hs, -⟩ := id hv
  have hpos : position (fun bp => decide (q ≤ bp)) t.breakpoints = some 0 := by
    apply position_eq_some_of _ 0 _ _ (by omega)
    · exact decide_eq_true (le_of_lt hq)
    · exact fun j hj => absurd hj (Nat.not_lt_zero j)
  have hne : t.breakpoints.getD 0 0 ≠ q := ne_of_gt hq
  simp only [OneDLookup.lookup]
  rw [hpos]
  dsimp only
  rw [if_neg hne, if_neg (by omega : ¬ (0 : Nat) ≠ 0)]

theorem lookup_above (t : OneDLookup) (hv : t.Valid) (q : ℚ)
    (hq : t.breakpoints.getD (t.breakpoints.length - 1) 0 < q)
    (e : Extrapolation) (p : Interpolation) :
    t.lookup q e p = match e with
      | .NoneError => .error ⟨⟩
      | .NoneHoldExtreme => .ok (t.values.getD (t.values.length - 1) 0)
      | .Linear => .ok ((q - t.breakpoints.getD (t.breakpoints.length - 2) 0)
          * t.last_diff_values / t.last_diff_bp
          + t.values.getD (t.values.length - 2) 0) := by
  obtain ⟨hlen, hlv, hs, -⟩ := id hv
  have hpos : position (fun bp => decide (q ≤ bp)) t.breakpoints = none := by
    rw [position_eq_none_iff]
    intro x hx
    simp only [decide_eq_false_iff_not, not_le]
    exact lt_of_le_of_lt (mem_le_last hs hx) hq
  simp only [OneDLookup.lookup]
  rw [hpos]

theorem lookup_inrange_ok (t : OneDLookup) (hv : t.Valid) (q : ℚ)
    (hlo : t.breakpoints.getD 0 0 ≤ q)
    (hhi : q ≤ t.breakpoints.getD (t.breakpoints.length - 1) 0)
    (e : Extrapolation) (p : Interpolation) :
    ∃ u, t.lookup q e p = .ok u := by
  obtain ⟨hlen, hlv, hs, -⟩ := id hv
  have hne : position (fun bp => decide (q ≤ bp)) t.breakpoints ≠ none := by
    rw [Ne, position_eq_none_iff]
    intro hall
    have hmem : t.breakpoints.getD (t.breakpoints.length - 1) 0 ∈ t.breakpoints := by
      rw [List.getD_eq_getElem t.breakpoints 0 (by omega)]
      exact List.getElem_mem _
    have := hall _ hmem
    simp only [decide_eq_false_iff_not, not_le] at this
    exact absurd hhi (not_le.mpr this)
  obtain ⟨i, hpos⟩ := Option.ne_none_iff_exists'.mp hne
  obtain ⟨hi, hp, hjs⟩ := position_spec _ 0 _ _ hpos
  simp only [decide_eq_true_eq] at hp
  by_cases heq : t.breakpoints.getD i 0 = q
  · refine ⟨t.values.getD i 0, ?_⟩
    simp only [OneDLookup.lookup]
    rw [hpos]
    dsimp only
    rw [if_pos heq]
  · have h0 : i ≠ 0 := by
      intro h
      subst h
      exact heq (le_antisymm hlo hp)
    have hlow : t.breakpoints.getD (i - 1) 0 < q := by
      have := hjs (i - 1) (by omega)
      simpa only [decide_eq_false_iff_not, not_le] using this
    have hhigh : q < t.breakpoints.getD i 0 := lt_of_le_of_ne hp fun h => heq h.symm
    rw [lookup_bracket t hv i q (by omega) hi hlow hhigh e p]
    exact ⟨_, rfl⟩

/-! ## Bracket search on a strictly ascending list -/

theorem position_sorted_below {l : List ℚ} {q : ℚ} (hl : 0 < l.length)
    (hq : q ≤ l.getD 0 0) :
    position (fun bp => decide (q ≤ bp)) l = some 0 := by
  apply position_eq_some_of _ 0 _ _ hl
  · exact decide_eq_true hq
  · exact fun j hj => absurd hj (Nat.not_lt_zero j)

theorem position_sorted_exact {l : List ℚ} (hs : l.Pairwise (· < ·)) {i : Nat}
    (hi : i < l.length) :
    position (fun bp => decide (l.getD i 0 ≤ bp)) l = some i := by
  apply position_eq_some_of _ 0 _ _ hi
  · exact decide_eq_true le_rfl
  · intro j hji
    simp only [decide_eq_false_iff_not, not_le]
    exact getD_lt_getD hs hji hi

theorem position_sorted_bracket {l : List ℚ} (hs : l.Pairwise (· < ·)) {i : Nat} {q : ℚ}
    (h1 : 1 ≤ i) (hi : i < l.length)
    (hlow : l.getD (i - 1) 0 < q) (hhigh : q ≤ l.getD i 0) :
    position (fun bp => decide (q ≤ bp)) l = some i := by
  apply position_eq_some_of _ 0 _ _ hi
  · exact decide_eq_true hhigh
  · intro j hji
    simp only [decide_eq_false_iff_not, not_le]
    exact lt_of_le_of_lt (getD_le_getD hs (by omega) (by omega)) hlow

theorem position_sorted_above {l : List ℚ} (hs : l.Pairwise (· < ·)) {q : ℚ}
    (hq : l.getD (l.length - 1) 0 < q) :
    position (fun bp => decide (q ≤ bp)) l = none := by
  rw [position_eq_none_iff]
  intro x hx
  simp only [decide_eq_false_iff_not, not_le]
  exact lt_of_le_of_lt (mem_le_last hs hx) hq

/-! ## Horizontal index resolution of the 2-D lookup -/

theorem indexesH_le_first (t : TwoDLookup) (hv : t.Valid) (p : Interpolation) {qh : ℚ}
    (hq : qh ≤ t.breakpoints_h.getD 0 0) : t.indexesH qh p = (0, none) := by
  obtain ⟨hlh, hlv, hsh, -⟩ := id hv
  have hpos := position_sorted_below (l := t.breakpoints_h) (by omega) hq
  simp only [TwoDLookup.indexesH]
  rw [hpos]
  dsimp only
  by_cases heq : t.breakpoints_h.getD 0 0 = qh
  · rw [if_pos heq]
  · rw [if_neg heq, if_neg (by omega : ¬ (0 : Nat) ≠ 0)]

theorem indexesH_ge_last (t : TwoDLookup) (hv : t.Valid) (p : Interpolation) {qh : ℚ}
    (hq : t.breakpoints_h.getD (t.breakpoints_h.length - 1) 0 ≤ qh) :
    t.indexesH qh p = (t.breakpoints_h.length - 1, none) := by
  obtain ⟨hlh, hlv, hsh, -⟩ := id hv
  rcases lt_or_eq_of_le hq with h | h
  · have hpos := position_sorted_above hsh h
    simp only [TwoDLookup.indexesH]
    rw [hpos]
  · have hpos : position (fun bp => decide (qh ≤ bp)) t.breakpoints_h
        = some (t.breakpoints_h.length - 1) :=
      h ▸ position_sorted_exact hsh (by omega)
    simp only [TwoDLookup.indexesH]
    rw [hpos]
    dsimp only
    rw [if_pos h]

theorem indexesH_exact (t : TwoDLookup) (hv : t.Valid) (p : Interpolation) {i : Nat}
    (hi : i < t.breakpoints_h.length) :
    t.indexesH (t.breakpoints_h.getD i 0) p = (i, none) := by
  obtain ⟨hlh, hlv, hsh, -⟩ := id hv
  have hpos := position_sorted_exact hsh hi
  simp only [TwoDLookup.indexesH]
  rw [hpos]
  dsimp only
  rw [if_pos rfl]

theorem indexesH_bracket_linear (t : TwoDLookup) (hv : t.Valid) {i : Nat} {qh : ℚ}
    (h1 : 1 ≤ i) (hi : i < t.breakpoints_h.length)
    (hlow : t.breakpoints_h.getD (i - 1) 0 < qh)
    (hhigh : qh < t.breakpoints_h.getD i 0) :
    t.indexesH qh .Linear = (i, some (i - 1)) := by
  obtain ⟨hlh, hlv, hsh, -⟩ := id hv
  have hpos := position_sorted_bracket hsh h1 hi hlow (le_of_lt hhigh)
  simp only [TwoDLookup.indexesH]
  rw [hpos]
  dsimp only
  rw [if_neg (ne_of_gt hhigh), if_pos (by omega : i ≠ 0)]

theorem indexesH_closest_tie (t : TwoDLookup) (hv : t.Valid) {i : Nat} {qh : ℚ}
    (h1 : 1 ≤ i) (hi : i < t.breakpoints_h.length)
    (htie : t.breakpoints_h.getD i 0 - qh
      = (t.breakpoints_h.getD i 0 - t.breakpoints_h.getD (i - 1) 0) / 2) :
    t.indexesH qh .NoneClosest = (i, none) := by
  obtain ⟨hlh, hlv, hsh, -⟩ := id hv
  have hd : t.breakpoints_h.getD (i - 1) 0 < t.breakpoints_h.getD i 0 :=
    getD_lt_getD hsh (by omega) hi
  have hlow : t.breakpoints_h.getD (i - 1) 0 < qh := by linarith
  have hhigh : qh < t.breakpoints_h.getD i 0 := by linarith
  have hpos := position_sorted_bracket hsh h1 hi hlow (le_of_lt hhigh)
  simp only [TwoDLookup.indexesH]
  rw [hpos]
  dsimp only
  rw [if_neg (ne_of_gt hhigh), if_pos (by omega : i ≠ 0)]
  have hcond : ¬((t.breakpoints_h.getD i 0 - t.breakpoints_h.getD (i - 1) 0)
        - (qh - t.breakpoints_h.getD (i - 1) 0)
      > (t.breakpoints_h.getD i 0 - t.breakpoints_h.getD (i - 1) 0) / 2) :=
    not_lt.mpr (by linarith)
  rw [if_neg hcond]
  rw [(by omega : i - 1 + 1 = i)]

/-! ## Congruence of `interpolate` in the unused vertical query -/

theorem interpolate_const_v (t : TwoDLookup) (ih : Nat × Option Nat) (v0 : Nat)
    (qh qv qv' : ℚ) :
    t.interpolate ih (v0, none) qh qv = t.interpolate ih (v0, none) qh qv' := by
  rcases ih with ⟨h0, - | h1⟩ <;> rfl

/-! ## Clamping equalities of the 2-D lookup -/

theorem lookup2_congr_h (t : TwoDLookup) (qh qh' qv : ℚ) (p : Interpolation) (h0 : Nat)
    (hih : t.indexesH qh p = (h0, none)) (hih' : t.indexesH qh' p = (h0, none)) :
    t.lookup qh qv p = t.lookup qh' qv p := by
  simp only [TwoDLookup.lookup]
  rw [hih, hih']
  cases hpv : position (fun bp => decide (qv ≤ bp)) t.breakpoints_v with
  | none =>
    dsimp only
    cases p <;> rfl
  | some index =>
    dsimp only
    by_cases heq : t.breakpoints_v.getD index 0 = qv
    · rw [if_pos heq, if_pos heq]
      cases p <;> rfl
    · rw [if_neg heq, if_neg heq]
      by_cases hz : index ≠ 0
      · rw [if_pos hz, if_pos hz]
        cases p <;> rfl
      · rw [if_neg hz, if_neg hz]
        cases p <;> rfl

theorem lookup2_v_clamp_low (t : TwoDLookup) (hv : t.Valid) (qh qv : ℚ)
    (p : Interpolation) (hq : qv < t.breakpoints_v.getD 0 0) :
    t.lookup qh qv p = t.lookup qh (t.breakpoints_v.getD 0 0) p := by
  obtain ⟨hlh, hlv, hsh, hsv, -⟩ := id hv
  have hposL := position_sorted_below (l := t.breakpoints_v) (by omega) (le_of_lt hq)
  have hposR := position_sorted_below (l := t.breakpoints_v) (by omega)
    (le_refl (t.breakpoints_v.getD 0 0))
  simp only [TwoDLookup.lookup]
  rw [hposL, hposR]
  dsimp only
  rw [if_neg (ne_of_gt hq), if_neg (by omega : ¬ (0 : Nat) ≠ 0), if_pos rfl]
  cases p <;> first | rfl | exact interpolate_const_v ..

theorem lookup2_v_clamp_high (t : TwoDLookup) (hv : t.Valid) (qh qv : ℚ)
    (p : Interpolation)
    (hq : t.breakpoints_v.getD (t.breakpoints_v.length - 1) 0 < qv) :
    t.lookup qh qv p
      = t.lookup qh (t.breakpoints_v.getD (t.breakpoints_v.length - 1) 0) p := by
  obtain ⟨hlh, hlv, hsh, hsv, hml, -⟩ := id hv
  have hposL := position_sorted_above hsv hq
  have hposR := position_sorted_exact hsv
    (show t.breakpoints_v.length - 1 < t.breakpoints_v.length by omega)
  simp only [TwoDLookup.lookup]
  rw [hposL, hposR]
  dsimp only
  rw [if_pos rfl, hml]
  cases p <;> first | rfl | exact interpolate_const_v ..

/-! ## The builder checks -/

theorem sortedCheck_iff (l : List ℚ) :
    sortedCheck l = true ↔ List.Chain' (· ≤ ·) l := by
  induction l with
  | nil => simp [sortedCheck]
  | cons x xs ih =>
    cases xs with
    | nil => simp [sortedCheck]
    | cons y ys =>
      rw [List.chain'_cons]
      by_cases h : x > y
      · simp [sortedCheck, h, not_le.mpr h]
      · simp [sortedCheck, h, not_lt.mp h, ih]

theorem create_1d_isSome_iff (bps vals : List ℚ) :
    (create_1d_lookup bps vals).isSome = true ↔
      (bps.length = vals.length ∧ 2 ≤ bps.length ∧ List.Chain' (· ≤ ·) bps) := by
  simp only [create_1d_lookup]
  by_cases h1 : bps.length = vals.length
  · by_cases h2 : sortedCheck bps = true
    · by_cases h3 : bps.length < 2
      · rw [if_neg (not_not_intro h1), if_neg (not_not_intro h2), if_pos h3]
        simp only [Option.isSome_none, Bool.false_eq_true, false_iff]
        intro h
        omega
      · rw [if_neg (not_not_intro h1), if_neg (not_not_intro h2), if_neg h3]
        simp only [Option.isSome_some, true_iff]
        exact ⟨h1, by omega, (sortedCheck_iff bps).mp h2⟩
    · rw [if_neg (not_not_intro h1), if_pos h2]
      simp only [Option.isSome_none, Bool.false_eq_true, false_iff]
      intro h
      exact h2 ((sortedCheck_iff bps).mpr h.2.2)
  · rw [if_pos h1]
    simp only [Option.isSome_none, Bool.false_eq_true, false_iff]
    intro h
    exact h1 h.1

theorem create_2d_isSome_iff (bh bv : List ℚ) (vals : List (List ℚ)) :
    (create_2d_lookup bh bv vals).isSome = true ↔
      (bv.length = vals.length ∧ vals.length ≠ 0 ∧
       bh.length = (vals.getD 0 []).length ∧
       List.Chain' (· ≤ ·) bh ∧ List.Chain' (· ≤ ·) bv) := by
  simp only [create_2d_lookup]
  by_cases h1 : bv.length = vals.length
  · by_cases h2 : vals.length = 0
    · rw [if_neg (not_not_intro h1), if_pos h2]
      simp only [Option.isSome_none, Bool.false_eq_true, false_iff]
      intro h
      exact h.2.1 h2
    · by_cases h3 : bh.length = (vals.getD 0 []).length
      · by_cases h4 : sortedCheck bh = true
        · by_cases h5 : sortedCheck bv = true
          · rw [if_neg (not_not_intro h1), if_neg h2, if_neg (not_not_intro h3),
              if_neg (not_not_intro h4), if_neg (not_not_intro h5)]
            simp only [Option.isSome_some, true_iff]
            exact ⟨h1, h2, h3, (sortedCheck_iff bh).mp h4, (sortedCheck_iff bv).mp h5⟩
          · rw [if_neg (not_not_intro h1), if_neg h2, if_neg (not_not_intro h3),
              if_neg (not_not_intro h4), if_pos h5]
            simp only [Option.isSome_none, Bool.false_eq_true, false_iff]
            intro h
            exact h5 ((sortedCheck_iff bv).mpr h.2.2.2.2)
        · rw [if_neg (not_not_intro h1), if_neg h2, if_neg (not_not_intro h3), if_pos h4]
          simp only [Option.isSome_none, Bool.false_eq_true, false_iff]
          intro h
          exact h4 ((sortedCheck_iff bh).mpr h.2.2.2.1)
      · rw [if_neg (not_not_intro h1), if_neg h2, if_pos h3]
        simp only [Option.isSome_none, Bool.false_eq_true, false_iff]
        intro h
        exact h3 h.2.2.1
  · rw [if_pos h1]
    simp only [Option.isSome_none, Bool.false_eq_true, false_iff]
    intro h
    exact h1 h.1

/-! ## The claims -/

/-- Claim C1: for every valid 1-D table and every index `i`, a lookup
whose query is exactly breakpoint `i` returns `Ok` of value `i` under
every combination of interpolation and extrapolation policy; in
particular an exact hit at either boundary under `NoneError` does not
produce an `ExtrapolationError`. -/
theorem spec_c1 (t : OneDLookup) (hv : t.Valid) (i : Nat)
    (hi : i < t.breakpoints.length) (e : Extrapolation) (p : Interpolation) :
    t.lookup (t.breakpoints.getD i 0) e p = .ok (t.values.getD i 0) :=
  lookup_exact_hit t hv i hi e p

/-- Witness for C1: an exact hit at the upper boundary of the
[0,5000]/[0,500] table under `NoneError` returns `Ok 500`. -/
theorem spec_c1_witness :
    pressureTable.lookup 5000 .NoneError .Linear = .ok 500 := by
  have hv : pressureTable.Valid := by
    norm_num [OneDLookup.Valid, pressureTable, List.pairwise_cons]
  have h := spec_c1 pressureTable hv 1 (by norm_num [pressureTable]) .NoneError .Linear
  simpa [pressureTable] using h

/-- Claim C2: with `NoneError`, a valid 1-D lookup fails iff the query
is strictly outside `[b0, b(n-1)]`; every in-range query succeeds under
every policy combination, and the two other extrapolation policies
never fail. -/
theorem spec_c2 (t : OneDLookup) (hv : t.Valid) (q : ℚ) :
    (∀ p, (t.lookup q .NoneError p = .error ⟨⟩ ↔
      (q < t.breakpoints.getD 0 0 ∨
       t.breakpoints.getD (t.breakpoints.length - 1) 0 < q))) ∧
    ((t.breakpoints.getD 0 0 ≤ q ∧
      q ≤ t.breakpoints.getD (t.breakpoints.length - 1) 0) →
      ∀ e p, ∃ u, t.lookup q e p = .ok u) ∧
    (∀ p, (∃ u, t.lookup q .NoneHoldExtreme p = .ok u) ∧
          (∃ u, t.lookup q .Linear p = .ok u)) := by
  refine ⟨fun p => ⟨?_, ?_⟩,
    fun hin e p => lookup_inrange_ok t hv q hin.1 hin.2 e p,
    fun p => ⟨?_, ?_⟩⟩
  · intro herr
    by_contra hcon
    push_neg at hcon
    obtain ⟨u, hu⟩ :=
      lookup_inrange_ok t hv q hcon.1 hcon.2 .NoneError p
    rw [hu] at herr
    exact Except.noConfusion herr
  · intro hout
    rcases hout with h | h
    · rw [lookup_below t hv q h .NoneError p]
    · rw [lookup_above t hv q h .NoneError p]
  · rcases lt_or_le q (t.breakpoints.getD 0 0) with h | h
    · exact ⟨_, by rw [lookup_below t hv q h .NoneHoldExtreme p]⟩
    · rcases le_or_lt q (t.breakpoints.getD (t.breakpoints.length - 1) 0) with h2 | h2
      · exact lookup_inrange_ok t hv q h h2 .NoneHoldExtreme p
      · exact ⟨_, by rw [lookup_above t hv q h2 .NoneHoldExtreme p]⟩
  · rcases lt_or_le q (t.breakpoints.getD 0 0) with h | h
    · exact ⟨_, by rw [lookup_below t hv q h .Linear p]⟩
    · rcases le_or_lt q (t.breakpoints.getD (t.breakpoints.length - 1) 0) with h2 | h2
      · exact lookup_inrange_ok t hv q h h2 .Linear p
      · exact ⟨_, by rw [lookup_above t hv q h2 .Linear p]⟩

/-- Witness for C2 on the spec's example table: `lookup(6000)` and
`lookup(-1000)` fail under `NoneError`, `lookup(2500)` succeeds. -/
theorem spec_c2_witness :
    pressureTable.lookup 6000 .NoneError .Linear = .error ⟨⟩ ∧
    pressureTable.lookup (-1000) .NoneError .Linear = .error ⟨⟩ ∧
    (∃ u, pressureTable.lookup 2500 .NoneError .Linear = .ok u) := by
  have hv : pressureTable.Valid := by
    norm_num [OneDLookup.Valid, pressureTable, List.pairwise_cons]
  refine ⟨?_, ?_, ?_⟩
  · exact ((spec_c2 pressureTable hv 6000).1 .Linear).mpr
      (Or.inr (by norm_num [pressureTable]))
  · exact ((spec_c2 pressureTable hv (-1000)).1 .Linear).mpr
      (Or.inl (by norm_num [pressureTable]))
  · exact (spec_c2 pressureTable hv 2500).2.1
      ⟨by norm_num [pressureTable], by norm_num [pressureTable]⟩ .NoneError .Linear

/-- Claim C9: under `NoneHoldExtreme`, every query strictly below the
first breakpoint returns the first value and every query strictly above
the last breakpoint returns the last value, for every interpolation
policy. -/
theorem spec_c9 (t : OneDLookup) (hv : t.Valid) (q : ℚ) (p : Interpolation) :
    (q < t.breakpoints.getD 0 0 →
      t.lookup q .NoneHoldExtreme p = .ok (t.values.getD 0 0)) ∧
    (t.breakpoints.getD (t.breakpoints.length - 1) 0 < q →
      t.lookup q .NoneHoldExtreme p = .ok (t.values.getD (t.values.length - 1) 0)) := by
  constructor
  · intro h
    rw [lookup_below t hv q h .NoneHoldExtreme p]
  · intro h
    rw [lookup_above t hv q h .NoneHoldExtreme p]

/-- Witness for C9 on the spec's example table: `lookup(-1000) == 0`
and `lookup(6000) == 500`. -/
theorem spec_c9_witness :
    pressureTable.lookup (-1000) .NoneHoldExtreme .Linear = .ok 0 ∧
    pressureTable.lookup 6000 .NoneHoldExtreme .Linear = .ok 500 := by
  have hv : pressureTable.Valid := by
    norm_num [OneDLookup.Valid, pressureTable, List.pairwise_cons]
  constructor
  · have h := (spec_c9 pressureTable hv (-1000) .Linear).1 (by norm_num [pressureTable])
    simpa [pressureTable] using h
  · have h := (spec_c9 pressureTable hv 6000 .Linear).2 (by norm_num [pressureTable])
    simpa [pressureTable] using h

/-- Claim C3 counterexample: in exact arithmetic the claimed example
values do not arise: on breakpoints [0,500,4500,5000] and values
[0,0,500,500] the lookup at 505 returns 5/8 (= 0.625), not the claimed
0 (the claimed 0 and 499 arise only in the truncating integer
instantiation of the test). -/
theorem spec_c3_counterexample :
    voltageTableQ.lookup 505 .NoneHoldExtreme .Linear = .ok (5/8) ∧
    ((5 : ℚ)/8 ≠ 0) := by
  constructor
  · norm_num [OneDLookup.lookup, position, voltageTableQ]
  · norm_num

/-- Claim C3 (amended): for a bracketed query the Linear interpolation
returns `(q - b[i-1]) * (v[i] - v[i-1]) / (b[i] - b[i-1]) + v[i-1]`,
computed in the value type's arithmetic; in exact arithmetic this
equals the claimed formula `v[i-1] + (q-b[i-1])/(b[i]-b[i-1])*(v[i]-v[i-1])`,
and in the truncating integer instantiation used by the repository test
the example outputs are `lookup(505)==0`, `lookup(4495)==499`,
`lookup(2500)==250`. -/
theorem spec_c3 :
    (∀ (t : OneDLookup), t.Valid → ∀ (i : Nat) (q : ℚ) (e : Extrapolation),
      1 ≤ i → i < t.breakpoints.length →
      t.breakpoints.getD (i - 1) 0 < q → q < t.breakpoints.getD i 0 →
      t.lookup q e .Linear =
        .ok ((q - t.breakpoints.getD (i - 1) 0)
          * (t.values.getD i 0 - t.values.getD (i - 1) 0)
          / (t.breakpoints.getD i 0 - t.breakpoints.getD (i - 1) 0)
          + t.values.getD (i - 1) 0) ∧
      (q - t.breakpoints.getD (i - 1) 0)
          * (t.values.getD i 0 - t.values.getD (i - 1) 0)
          / (t.breakpoints.getD i 0 - t.breakpoints.getD (i - 1) 0)
          + t.values.getD (i - 1) 0
        = t.values.getD (i - 1) 0
          + (q - t.breakpoints.getD (i - 1) 0)
            / (t.breakpoints.getD i 0 - t.breakpoints.getD (i - 1) 0)
            * (t.values.getD i 0 - t.values.getD (i - 1) 0)) ∧
    (voltageTableZ.lookup 505 .NoneHoldExtreme .Linear = .ok 0 ∧
     voltageTableZ.lookup 4495 .NoneHoldExtreme .Linear = .ok 499 ∧
     voltageTableZ.lookup 2500 .NoneHoldExtreme .Linear = .ok 250) := by
  refine ⟨fun t hv i q e h1 hi hlow hhigh => ⟨?_, by ring⟩, by decide, by decide, by decide⟩
  exact lookup_bracket t hv i q h1 hi hlow hhigh e .Linear

/-- Witness for C3 on the exact-field table: `lookup(2500) == 250`. -/
theorem spec_c3_witness :
    voltageTableQ.lookup 2500 .NoneHoldExtreme .Linear = .ok 250 := by
  have hv : voltageTableQ.Valid := by
    norm_num [OneDLookup.Valid, voltageTableQ, List.pairwise_cons]
  have h := (spec_c3.1 voltageTableQ hv 2 2500 .NoneHoldExtreme
    (by norm_num) (by norm_num [voltageTableQ])
    (by norm_num [voltageTableQ]) (by norm_num [voltageTableQ])).1
  rw [h]
  norm_num [voltageTableQ]

/-- Claim C4 counterexample: on breakpoints [0,5000], values [0,500],
the code's low-end Linear extrapolation at -1000 returns -100 (the
continuation of the edge line), while the claim's written formula
`v1 + (q-b1) * (-firstDeltaV/firstDeltaB)` evaluates to 1100. -/
theorem spec_c4_counterexample :
    pressureTable.lookup (-1000) .Linear .Linear = .ok (-100) ∧
    lowLinearBySpec pressureTable (-1000) = 1100 ∧
    ((-100 : ℚ) ≠ 1100) := by
  refine ⟨?_, ?_, by norm_num⟩
  · norm_num [OneDLookup.lookup, position, pressureTable]
  · norm_num [lowLinearBySpec, pressureTable]

/-- Claim C4 (amended): under `Extrapolation::Linear`, a query below
`b[0]` returns `(b[1]-q) * (-firstDeltaV) / firstDeltaB + v[1]`
(equivalently `v[1] + (q-b[1]) * (firstDeltaV/firstDeltaB)` — the
claim's formula has the sign of the slope factor flipped), and a query
above `b[n-1]` returns `(q-b[n-2]) * lastDeltaV / lastDeltaB + v[n-2]`
as claimed; each equals the continuation of the line through the two
nearest edge points, hence is continuous with Linear interpolation at
the boundary. -/
theorem spec_c4 (t : OneDLookup) (hv : t.Valid) (q : ℚ) (p : Interpolation) :
    (q < t.breakpoints.getD 0 0 →
      t.lookup q .Linear p =
        .ok ((t.breakpoints.getD 1 0 - q) * (-t.first_diff_values)
          / t.first_diff_bp + t.values.getD 1 0) ∧
      (t.breakpoints.getD 1 0 - q) * (-t.first_diff_values)
          / t.first_diff_bp + t.values.getD 1 0
        = t.values.getD 0 0 + (q - t.breakpoints.getD 0 0)
            * (t.values.getD 1 0 - t.values.getD 0 0)
            / (t.breakpoints.getD 1 0 - t.breakpoints.getD 0 0)) ∧
    (t.breakpoints.getD (t.breakpoints.length - 1) 0 < q →
      t.lookup q .Linear p =
        .ok ((q - t.breakpoints.getD (t.breakpoints.length - 2) 0)
          * t.last_diff_values / t.last_diff_bp
          + t.values.getD (t.values.length - 2) 0) ∧
      (q - t.breakpoints.getD (t.breakpoints.length - 2) 0)
          * t.last_diff_values / t.last_diff_bp
          + t.values.getD (t.values.length - 2) 0
        = t.values.getD (t.values.length - 2) 0
          + (q - t.breakpoints.getD (t.breakpoints.length - 2) 0)
            * (t.values.getD (t.values.length - 1) 0
                - t.values.getD (t.values.length - 2) 0)
            / (t.breakpoints.getD (t.breakpoints.length - 1) 0
                - t.breakpoints.getD (t.breakpoints.length - 2) 0)) := by
  obtain ⟨hlen, hlv, hs, hf1, hf2, hl1, hl2⟩ := id hv
  constructor
  · intro h
    constructor
    · rw [lookup_below t hv q h .Linear p]
    · rw [hf1, hf2]
      have hd : t.breakpoints.getD 1 0 - t.breakpoints.getD 0 0 ≠ 0 :=
        sub_ne_zero.mpr (ne_of_gt (getD_lt_getD hs (by omega) (by omega)))
      set b0 := t.breakpoints.getD 0 0 with hb0
      set b1 := t.breakpoints.getD 1 0 with hb1
      set v0 := t.values.getD 0 0 with hv0
      set v1 := t.values.getD 1 0 with hv1
      field_simp
      ring
  · intro h
    constructor
    · rw [lookup_above t hv q h .Linear p]
    · rw [hl1, hl2]
      have hd : t.breakpoints.getD (t.breakpoints.length - 1) 0
          - t.breakpoints.getD (t.breakpoints.length - 2) 0 ≠ 0 :=
        sub_ne_zero.mpr (ne_of_gt (getD_lt_getD hs (by omega) (by omega)))
      set bl := t.breakpoints.getD (t.breakpoints.length - 1) 0 with hbl
      set bk := t.breakpoints.getD (t.breakpoints.length - 2) 0 with hbk
      set vl := t.values.getD (t.values.length - 1) 0 with hvl
      set vk := t.values.getD (t.values.length - 2) 0 with hvk
      field_simp
      ring

/-- Witness for C4 on the spec's example table: `lookup(-1000) == -100`
and `lookup(6000) == 600`. -/
theorem spec_c4_witness :
    pressureTable.lookup (-1000) .Linear .Linear = .ok (-100) ∧
    pressureTable.lookup 6000 .Linear .Linear = .ok 600 := by
  have hv : pressureTable.Valid := by
    norm_num [OneDLookup.Valid, pressureTable, List.pairwise_cons]
  constructor
  · have h := ((spec_c4 pressureTable hv (-1000) .Linear).1
      (by norm_num [pressureTable])).1
    rw [h]
    norm_num [pressureTable]
  · have h := ((spec_c4 pressureTable hv 6000 .Linear).2
      (by norm_num [pressureTable])).1
    rw [h]
    norm_num [pressureTable]

/-- Claim C8 counterexample: on breakpoints [0,1,5,6], values
[0,1,6,8], the query 3 is the exact midpoint of [1,5]: its remaining
distance to b[2] (= 2) is not strictly smaller than half the segment
width (= 2), so the claim's rule returns v[1] = 1, but the code
returns v[2] = 6 (and the claim itself also asserts
`lookup(3, Closest) == 6`). -/
theorem spec_c8_counterexample :
    closestTable.lookup 3 .NoneHoldExtreme .NoneClosest = .ok 6 ∧
    closestBySpec closestTable 2 3 = 1 ∧ ((6 : ℚ) ≠ 1) := by
  refine ⟨?_, ?_, by norm_num⟩
  · norm_num [OneDLookup.lookup, position, closestTable]
  · norm_num [closestBySpec, closestTable]

/-- Claim C8 (amended): for a bracketed query under `NoneClosest`, the
lookup returns `v[index-1]` when the remaining distance to `b[index]`
is strictly greater than half the segment width, and `v[index]`
otherwise (so an exact half-distance tie goes to the upper value);
examples: `lookup(3, Closest) == 6`, `lookup(2, Closest) == 1`. -/
theorem spec_c8 (t : OneDLookup) (hv : t.Valid) (i : Nat) (q : ℚ)
    (e : Extrapolation) (h1 : 1 ≤ i) (hi : i < t.breakpoints.length)
    (hlow : t.breakpoints.getD (i - 1) 0 < q)
    (hhigh : q < t.breakpoints.getD i 0) :
    ((t.breakpoints.getD i 0 - t.breakpoints.getD (i - 1) 0) / 2
        < t.breakpoints.getD i 0 - q →
      t.lookup q e .NoneClosest = .ok (t.values.getD (i - 1) 0)) ∧
    (t.breakpoints.getD i 0 - q
        ≤ (t.breakpoints.getD i 0 - t.breakpoints.getD (i - 1) 0) / 2 →
      t.lookup q e .NoneClosest = .ok (t.values.getD i 0)) := by
  constructor
  · intro h
    rw [lookup_bracket t hv i q h1 hi hlow hhigh e .NoneClosest]
    have hc : (t.breakpoints.getD i 0 - t.breakpoints.getD (i - 1) 0)
          - (q - t.breakpoints.getD (i - 1) 0)
        > (t.breakpoints.getD i 0 - t.breakpoints.getD (i - 1) 0) / 2 := by
      linarith
    rw [if_pos hc]
    exact rfl
  · intro h
    rw [lookup_bracket t hv i q h1 hi hlow hhigh e .NoneClosest]
    have hc : ¬((t.breakpoints.getD i 0 - t.breakpoints.getD (i - 1) 0)
          - (q - t.breakpoints.getD (i - 1) 0)
        > (t.breakpoints.getD i 0 - t.breakpoints.getD (i - 1) 0) / 2) :=
      not_lt.mpr (by linarith)
    rw [if_neg hc, (by omega : i - 1 + 1 = i)]

/-- Witness for C8 on the test table: `lookup(2, Closest) == 1`
(remaining distance 3 > 2) and `lookup(3, Closest) == 6` (tie). -/
theorem spec_c8_witness :
    closestTable.lookup 2 .NoneHoldExtreme .NoneClosest = .ok 1 ∧
    closestTable.lookup 3 .NoneHoldExtreme .NoneClosest = .ok 6 := by
  have hv : closestTable.Valid := by
    norm_num [OneDLookup.Valid, closestTable, List.pairwise_cons]
  constructor
  · have h := (spec_c8 closestTable hv 2 2 .NoneHoldExtreme (by norm_num)
      (by norm_num [closestTable]) (by norm_num [closestTable])
      (by norm_num [closestTable])).1 (by norm_num [closestTable])
    simpa [closestTable] using h
  · have h := (spec_c8 closestTable hv 2 3 .NoneHoldExtreme (by norm_num)
      (by norm_num [closestTable]) (by norm_num [closestTable])
      (by norm_num [closestTable])).2 (by norm_num [closestTable])
    simpa [closestTable] using h

/-- Claim C10: under `NoneClosest`, an exact half-distance tie (the
remaining distance to the upper breakpoint equals half the segment
width, in the breakpoint arithmetic) resolves to the upper value, in
the 1-D engine and on both axes of the 2-D engine. -/
theorem spec_c10 :
    (∀ (t : OneDLookup), t.Valid → ∀ (i : Nat) (q : ℚ) (e : Extrapolation),
      1 ≤ i → i < t.breakpoints.length →
      t.breakpoints.getD i 0 - q
        = (t.breakpoints.getD i 0 - t.breakpoints.getD (i - 1) 0) / 2 →
      t.lookup q e .NoneClosest = .ok (t.values.getD i 0)) ∧
    (∀ (t : TwoDLookup), t.Valid → ∀ (i j : Nat) (qh : ℚ),
      1 ≤ i → i < t.breakpoints_h.length → j < t.breakpoints_v.length →
      t.breakpoints_h.getD i 0 - qh
        = (t.breakpoints_h.getD i 0 - t.breakpoints_h.getD (i - 1) 0) / 2 →
      t.lookup qh (t.breakpoints_v.getD j 0) .NoneClosest
        = (t.values.getD j []).getD i 0) ∧
    (∀ (t : TwoDLookup), t.Valid → ∀ (i j : Nat) (qv : ℚ),
      i < t.breakpoints_h.length → 1 ≤ j → j < t.breakpoints_v.length →
      t.breakpoints_v.getD j 0 - qv
        = (t.breakpoints_v.getD j 0 - t.breakpoints_v.getD (j - 1) 0) / 2 →
      t.lookup (t.breakpoints_h.getD i 0) qv .NoneClosest
        = (t.values.getD j []).getD i 0) := by
  refine ⟨?_, ?_, ?_⟩
  · intro t hv i q e h1 hi htie
    obtain ⟨hlen, hlv, hs, -⟩ := id hv
    have hd : t.breakpoints.getD (i - 1) 0 < t.breakpoints.getD i 0 :=
      getD_lt_getD hs (by omega) hi
    have hlow : t.breakpoints.getD (i - 1) 0 < q := by linarith
    have hhigh : q < t.breakpoints.getD i 0 := by linarith
    rw [lookup_bracket t hv i q h1 hi hlow hhigh e .NoneClosest]
    have hc : ¬((t.breakpoints.getD i 0 - t.breakpoints.getD (i - 1) 0)
          - (q - t.breakpoints.getD (i - 1) 0)
        > (t.breakpoints.getD i 0 - t.breakpoints.getD (i - 1) 0) / 2) :=
      not_lt.mpr (by linarith)
    rw [if_neg hc, (by omega : i - 1 + 1 = i)]
  · intro t hv i j qh h1 hi hj htie
    obtain ⟨hlh, hlv, hsh, hsv, -⟩ := id hv
    have hih := indexesH_closest_tie t hv h1 hi htie
    have hpv := position_sorted_exact hsv hj
    simp only [TwoDLookup.lookup]
    rw [hih, hpv]
    dsimp only
    rw [if_pos rfl]
  · intro t hv i j qv hi h1 hj htie
    obtain ⟨hlh, hlv, hsh, hsv, -⟩ := id hv
    have hih := indexesH_exact t hv .NoneClosest hi
    have hd : t.breakpoints_v.getD (j - 1) 0 < t.breakpoints_v.getD j 0 :=
      getD_lt_getD hsv (by omega) hj
    have hlow : t.breakpoints_v.getD (j - 1) 0 < qv := by linarith
    have hhigh : qv < t.breakpoints_v.getD j 0 := by linarith
    have hpv := position_sorted_bracket hsv h1 hj hlow (le_of_lt hhigh)
    simp only [TwoDLookup.lookup]
    rw [hih, hpv]
    dsimp only
    rw [if_neg (ne_of_gt hhigh), if_pos (by omega : j ≠ 0)]
    have hc : ¬((t.breakpoints_v.getD j 0 - t.breakpoints_v.getD (j - 1) 0)
          - (qv - t.breakpoints_v.getD (j - 1) 0)
        > (t.breakpoints_v.getD j 0 - t.breakpoints_v.getD (j - 1) 0) / 2) :=
      not_lt.mpr (by linarith)
    rw [if_neg hc, (by omega : j - 1 + 1 = j)]

/-- Witness for C10: a 1-D tie at q=3 on [0,1,5,6]/[0,1,6,8] returns
Ok 6; on the 2-D grid a horizontal tie at qh=750 with vertical exact
hit 3 returns the cell 6, and a vertical tie at qv=4.5 with horizontal
exact hit 500 returns the cell 5.8. -/
theorem spec_c10_witness :
    closestTable.lookup 3 .NoneError .NoneClosest = .ok 6 ∧
    gridTable.lookup 750 3 .NoneClosest = 6 ∧
    gridTable.lookup 500 (9/2) .NoneClosest = 29/5 := by
  have hv1 : closestTable.Valid := by
    norm_num [OneDLookup.Valid, closestTable, List.pairwise_cons]
  have hv2 : gridTable.Valid := by
    norm_num [TwoDLookup.Valid, gridTable, List.pairwise_cons]
  refine ⟨?_, ?_, ?_⟩
  · have h := spec_c10.1 closestTable hv1 2 3 .NoneError (by norm_num)
      (by norm_num [closestTable]) (by norm_num [closestTable])
    simpa [closestTable] using h
  · have h := spec_c10.2.1 gridTable hv2 2 1 750 (by norm_num)
      (by norm_num [gridTable]) (by norm_num [gridTable]) (by norm_num [gridTable])
    simpa [gridTable] using h
  · have h := spec_c10.2.2 gridTable hv2 1 2 (9/2) (by norm_num [gridTable])
      (by norm_num) (by norm_num [gridTable]) (by norm_num [gridTable])
    simpa [gridTable] using h

/-- Claim C5: the 2-D Linear lookup is full bilinear interpolation when
both axes are bracketed (two horizontal blends, at the lower and upper
vertical rows, then one vertical blend), a single 1-D blend along the
bracketed axis when exactly one axis is bracketed, and the single
matrix cell when neither is; on the 3x3 example grid
`lookup(500,3) == 5.0`, `lookup(750,4) == 5.7166667` within 1e-5, and
`lookup(1250,7) == 6.5`. -/
theorem spec_c5 :
    (∀ (t : TwoDLookup), t.Valid → ∀ (i j : Nat) (qh qv : ℚ),
      1 ≤ i → i < t.breakpoints_h.length → 1 ≤ j → j < t.breakpoints_v.length →
      t.breakpoints_h.getD (i - 1) 0 < qh → qh < t.breakpoints_h.getD i 0 →
      t.breakpoints_v.getD (j - 1) 0 < qv → qv < t.breakpoints_v.getD j 0 →
      t.lookup qh qv .Linear =
        (let low := (qh - t.breakpoints_h.getD (i - 1) 0)
            * ((t.values.getD (j - 1) []).getD i 0
                - (t.values.getD (j - 1) []).getD (i - 1) 0)
            / (t.breakpoints_h.getD i 0 - t.breakpoints_h.getD (i - 1) 0)
            + (t.values.getD (j - 1) []).getD (i - 1) 0
         let high := (qh - t.breakpoints_h.getD (i - 1) 0)
            * ((t.values.getD j []).getD i 0 - (t.values.getD j []).getD (i - 1) 0)
            / (t.breakpoints_h.getD i 0 - t.breakpoints_h.getD (i - 1) 0)
            + (t.values.getD j []).getD (i - 1) 0
         (qv - t.breakpoints_v.getD (j - 1) 0) * (high - low)
            / (t.breakpoints_v.getD j 0 - t.breakpoints_v.getD (j - 1) 0) + low)) ∧
    (∀ (t : TwoDLookup), t.Valid → ∀ (i j : Nat) (qv : ℚ),
      i < t.breakpoints_h.length → 1 ≤ j → j < t.breakpoints_v.length →
      t.breakpoints_v.getD (j - 1) 0 < qv → qv < t.breakpoints_v.getD j 0 →
      t.lookup (t.breakpoints_h.getD i 0) qv .Linear =
        (qv - t.breakpoints_v.getD (j - 1) 0)
          * ((t.values.getD j []).getD i 0 - (t.values.getD (j - 1) []).getD i 0)
          / (t.breakpoints_v.getD j 0 - t.breakpoints_v.getD (j - 1) 0)
          + (t.values.getD (j - 1) []).getD i 0) ∧
    (∀ (t : TwoDLookup), t.Valid → ∀ (i j : Nat) (qh : ℚ),
      1 ≤ i → i < t.breakpoints_h.length → j < t.breakpoints_v.length →
      t.breakpoints_h.getD (i - 1) 0 < qh → qh < t.breakpoints_h.getD i 0 →
      t.lookup qh (t.breakpoints_v.getD j 0) .Linear =
        (qh - t.breakpoints_h.getD (i - 1) 0)
          * ((t.values.getD j []).getD i 0 - (t.values.getD j []).getD (i - 1) 0)
          / (t.breakpoints_h.getD i 0 - t.breakpoints_h.getD (i - 1) 0)
          + (t.values.getD j []).getD (i - 1) 0) ∧
    (∀ (t : TwoDLookup), t.Valid → ∀ (i j : Nat),
      i < t.breakpoints_h.length → j < t.breakpoints_v.length →
      t.lookup (t.breakpoints_h.getD i 0) (t.breakpoints_v.getD j 0) .Linear
        = (t.values.getD j []).getD i 0) ∧
    (gridTable.lookup 500 3 .Linear = 5 ∧
     |gridTable.lookup 750 4 .Linear - 57166667/10000000| < 1/100000 ∧
     gridTable.lookup 1250 7 .Linear = 13/2) := by
  refine ⟨?_, ?_, ?_, ?_, ?_, ?_, ?_⟩
  · intro t hv i j qh qv h1i hi h1j hj hlh hhh hlv2 hhv2
    obtain ⟨hlh0, hlv0, hsh, hsv, -⟩ := id hv
    have hih := indexesH_bracket_linear t hv h1i hi hlh hhh
    have hpv := position_sorted_bracket hsv h1j hj hlv2 (le_of_lt hhv2)
    simp only [TwoDLookup.lookup]
    rw [hih, hpv]
    dsimp only
    rw [if_neg (ne_of_gt hhv2), if_pos (by omega : j ≠ 0)]
    rfl
  · intro t hv i j qv hi h1j hj hlv2 hhv2
    obtain ⟨hlh0, hlv0, hsh, hsv, -⟩ := id hv
    have hih := indexesH_exact t hv .Linear hi
    have hpv := position_sorted_bracket hsv h1j hj hlv2 (le_of_lt hhv2)
    simp only [TwoDLookup.lookup]
    rw [hih, hpv]
    dsimp only
    rw [if_neg (ne_of_gt hhv2), if_pos (by omega : j ≠ 0)]
    rfl
  · intro t hv i j qh h1i hi hj hlh hhh
    obtain ⟨hlh0, hlv0, hsh, hsv, -⟩ := id hv
    have hih := indexesH_bracket_linear t hv h1i hi hlh hhh
    have hpv := position_sorted_exact hsv hj
    simp only [TwoDLookup.lookup]
    rw [hih, hpv]
    dsimp only
    rw [if_pos rfl]
    rfl
  · intro t hv i j hi hj
    obtain ⟨hlh0, hlv0, hsh, hsv, -⟩ := id hv
    have hih := indexesH_exact t hv .Linear hi
    have hpv := position_sorted_exact hsv hj
    simp only [TwoDLookup.lookup]
    rw [hih, hpv]
    dsimp only
    rw [if_pos rfl]
    rfl
  · norm_num [TwoDLookup.lookup, TwoDLookup.indexesH, TwoDLookup.interpolate,
      position, gridTable]
  · have h : gridTable.lookup 750 4 .Linear = 343/60 := by
      norm_num [TwoDLookup.lookup, TwoDLookup.indexesH, TwoDLookup.interpolate,
        position, gridTable]
    rw [h, abs_lt]
    constructor <;> norm_num
  · norm_num [TwoDLookup.lookup, TwoDLookup.indexesH, TwoDLookup.interpolate,
      position, gridTable]

/-- Witness for C5: the bilinear branch applied at the grid's interior
point (750, 4) gives 343/60 (= 5.71666...). -/
theorem spec_c5_witness :
    gridTable.lookup 750 4 .Linear = 343/60 := by
  have hv : gridTable.Valid := by
    norm_num [TwoDLookup.Valid, gridTable, List.pairwise_cons]
  have h := spec_c5.1 gridTable hv 2 2 750 4 (by norm_num)
    (by norm_num [gridTable]) (by norm_num) (by norm_num [gridTable])
    (by norm_num [gridTable]) (by norm_num [gridTable])
    (by norm_num [gridTable]) (by norm_num [gridTable])
  rw [h]
  norm_num [gridTable]

/-- Claim C6: the 2-D lookup is total (it returns a plain value — the
Rust error type is `Infallible` — and the model returns `ℚ` directly);
a query below an axis's first breakpoint resolves that axis to index 0
and a query above its last breakpoint to the last index, so the result
agrees with the lookup at the clamped boundary breakpoint; the 1-D
engine, by contrast, can error. -/
theorem spec_c6 (t : TwoDLookup) (hv : t.Valid) (p : Interpolation) (qh qv : ℚ) :
    (qh < t.breakpoints_h.getD 0 0 →
      t.indexesH qh p = (0, none) ∧
      t.lookup qh qv p = t.lookup (t.breakpoints_h.getD 0 0) qv p) ∧
    (t.breakpoints_h.getD (t.breakpoints_h.length - 1) 0 < qh →
      t.indexesH qh p = (t.breakpoints_h.length - 1, none) ∧
      t.lookup qh qv p
        = t.lookup (t.breakpoints_h.getD (t.breakpoints_h.length - 1) 0) qv p) ∧
    (qv < t.breakpoints_v.getD 0 0 →
      t.lookup qh qv p = t.lookup qh (t.breakpoints_v.getD 0 0) p) ∧
    (t.breakpoints_v.getD (t.breakpoints_v.length - 1) 0 < qv →
      t.lookup qh qv p
        = t.lookup qh (t.breakpoints_v.getD (t.breakpoints_v.length - 1) 0) p) ∧
    pressureTable.lookup 6000 .NoneError .Linear = .error ⟨⟩ := by
  refine ⟨fun h => ⟨indexesH_le_first t hv p (le_of_lt h), ?_⟩,
    fun h => ⟨indexesH_ge_last t hv p (le_of_lt h), ?_⟩,
    fun h => lookup2_v_clamp_low t hv qh qv p h,
    fun h => lookup2_v_clamp_high t hv qh qv p h, ?_⟩
  · exact lookup2_congr_h t qh (t.breakpoints_h.getD 0 0) qv p 0
      (indexesH_le_first t hv p (le_of_lt h)) (indexesH_le_first t hv p le_rfl)
  · exact lookup2_congr_h t qh
      (t.breakpoints_h.getD (t.breakpoints_h.length - 1) 0) qv p
      (t.breakpoints_h.length - 1)
      (indexesH_ge_last t hv p (le_of_lt h)) (indexesH_ge_last t hv p le_rfl)
  · norm_num [OneDLookup.lookup, position, pressureTable]

/-- Witness for C6 on the example grid: out-of-range queries on either
axis agree with the lookup at the clamped boundary breakpoint. -/
theorem spec_c6_witness :
    gridTable.lookup 1250 2 .Linear = gridTable.lookup 1000 2 .Linear ∧
    gridTable.lookup (-250) 2 .Linear = gridTable.lookup 0 2 .Linear ∧
    gridTable.lookup 750 7 .Linear = gridTable.lookup 750 6 .Linear ∧
    gridTable.lookup 750 (-1) .Linear = gridTable.lookup 750 0 .Linear := by
  have hv : gridTable.Valid := by
    norm_num [TwoDLookup.Valid, gridTable, List.pairwise_cons]
  refine ⟨?_, ?_, ?_, ?_⟩
  · have h := ((spec_c6 gridTable hv .Linear 1250 2).2.1
      (by norm_num [gridTable])).2
    simpa [gridTable] using h
  · have h := ((spec_c6 gridTable hv .Linear (-250) 2).1
      (by norm_num [gridTable])).2
    simpa [gridTable] using h
  · have h := (spec_c6 gridTable hv .Linear 750 7).2.2.2.1
      (by norm_num [gridTable])
    simpa [gridTable] using h
  · have h := (spec_c6 gridTable hv .Linear 750 (-1)).2.2.1
      (by norm_num [gridTable])
    simpa [gridTable] using h

/-- Claim C7 counterexample: both builders accept breakpoint sequences
with duplicate (equal adjacent) breakpoints — the sortedness loops
panic only on a strict descent — so [1,1,2] produces a table. -/
theorem spec_c7_counterexample :
    (create_1d_lookup [1, 1, 2] [5, 6, 7]).isSome = true ∧
    (create_2d_lookup [1, 1, 2] [0, 1] [[7, 7, 7], [8, 8, 8]]).isSome = true := by
  constructor
  · norm_num [create_1d_lookup, sortedCheck]
  · norm_num [create_2d_lookup, sortedCheck]

/-- Claim C7 (amended): the builders reject mismatched
breakpoint/value lengths and any strictly descending adjacent
breakpoint pair before a table is produced, but they accept
non-strictly-ascending sequences with equal adjacent (duplicate)
breakpoints: a 1-D table is produced iff the lengths match, there are
at least two breakpoints, and the breakpoints are non-decreasing; a
2-D table is produced iff the two length checks pass, the matrix is
non-empty, and both axes are non-decreasing. -/
theorem spec_c7 :
    (∀ (bps vals : List ℚ), (create_1d_lookup bps vals).isSome = true ↔
      (bps.length = vals.length ∧ 2 ≤ bps.length ∧ List.Chain' (· ≤ ·) bps)) ∧
    (∀ (bh bv : List ℚ) (vals : List (List ℚ)),
      (create_2d_lookup bh bv vals).isSome = true ↔
      (bv.length = vals.length ∧ vals.length ≠ 0 ∧
       bh.length = (vals.getD 0 []).length ∧
       List.Chain' (· ≤ ·) bh ∧ List.Chain' (· ≤ ·) bv)) :=
  ⟨create_1d_isSome_iff, create_2d_isSome_iff⟩

/-- Witness for C7: the strictly ascending pair [0,5000] is accepted,
and the descending pair [1,0] is rejected, by the 1-D builder. -/
theorem spec_c7_witness :
    (create_1d_lookup [0, 5000] [0, 500]).isSome = true ∧
    (create_1d_lookup [1, 0] [0, 500]).isSome = false := by
  constructor
  · exact (spec_c7.1 [0, 5000] [0, 500]).mpr
      ⟨by norm_num, by norm_num, by simp [List.chain'_cons]⟩
  · rw [Bool.eq_false_iff]
    intro h
    have := (spec_c7.1 [1, 0] [0, 500]).mp h
    have h2 := this.2.2
    simp only [List.chain'_cons] at h2
    exact absurd h2.1 (by norm_num)

end GoLookup
